import Mathlib

/-!
Verification of `goal_sender_node`.

A shallow embedding of `src/goal_sender/src/goal_sender_node.cpp`: the waypoint
cursor (`WaypointManager`), the position lookup (`TfPositionManager`) and the
control tick (`GoalSender::once`).

Conventions of the embedding.

* Numbers live in a type `R` carrying only the operations the code uses
  (`-`, `*`, `+`, `<`); every definition is generic in `R`. The code runs on
  `double`, which is the instance `Binary64` (IEEE 754 binary64 with rounding to
  nearest, ties to even); exact arithmetic is any ordered ring.
* The iterator `now_goal` is its offset from `sequence_.waypoints.begin()`;
  `sequence_.waypoints.end()` is the offset `length`.
* A C++ exception is an `Except.error` carrying a `Thrown`; a member function
  that can mutate returns its outcome together with the object afterwards.
-/

namespace GoalSenderNode

/-- The 2D part of `geometry_msgs::Point`: the only fields the node reads or writes. -/
structure Point (R : Type) where
  x : R
  y : R
deriving DecidableEq, Repr

/-- Modelled from the spec: the `goal_sender_msgs::Waypoint` message, whose declaration
is outside the source tree; the code reads its `position` and `radius` members. -/
structure Waypoint (R : Type) where
  position : Point R
  radius : R
deriving DecidableEq, Repr

/-- Modelled from the spec: the `goal_sender_msgs::GoalSequence` message, whose declaration
is outside the source tree; the code reads its `waypoints` container. -/
structure GoalSequence (R : Type) where
  waypoints : List (Waypoint R)
deriving DecidableEq, Repr

/-- Modelled from the spec: the `goal_sender_msgs::ApplyGoals::Request` message, whose
declaration is outside the source tree: an ordered list of waypoints. -/
structure ApplyGoalsRequest (R : Type) where
  goals : GoalSequence R
deriving DecidableEq, Repr

/-- Modelled from the spec: the `goal_sender_msgs::ApplyGoals::Response` message, whose
declaration is outside the source tree: a boolean acceptance flag. -/
structure ApplyGoalsResponse where
  success : Bool
deriving DecidableEq, Repr

/-- What a call can raise. `invalid_dereference` marks the dereference of an iterator
that is neither inside the container nor its `end()`, which C++ leaves undefined. -/
inductive Thrown where
  | logic_error (what : String)
  | transform_exception (what : String)
  | invalid_dereference
deriving DecidableEq, Repr

/-- The function `squaring_distance` (lines 11-15). -/
def squaring_distance {R : Type} [Sub R] [Mul R] [Add R] (a b : Point R) : R :=
  let x := a.x - b.x
  let y := a.y - b.y
  x * x + y * y

/-- The private members of `class WaypointManager` (lines 61-62). -/
structure WaypointManager (R : Type) where
  sequence_ : GoalSequence R
  now_goal : Nat
deriving DecidableEq, Repr

namespace WaypointManager

variable {R : Type}

/-- The object made by `WaypointManager point_manager {};` in `main` (line 132): the
class declares no constructor, so the container is empty and the iterator is
value-initialised, which is the position `begin() = end()` of the empty container. -/
def constructed : WaypointManager R :=
  { sequence_ := { waypoints := [] }, now_goal := 0 }

/-- Member function `WaypointManager::operator()` (lines 23-26): the service handler. It touches
neither the request, nor the response, nor the object. -/
def call_operator (m : WaypointManager R) (_req : ApplyGoalsRequest R)
    (res : ApplyGoalsResponse) : Bool × ApplyGoalsResponse × WaypointManager R :=
  (true, res, m)

/-- Member function `WaypointManager::is_end` (lines 48-51). -/
def is_end (m : WaypointManager R) : Bool :=
  m.sequence_.waypoints.length == m.now_goal

/-- Member function `WaypointManager::point` (lines 28-32). -/
def point (m : WaypointManager R) : Except Thrown (Point R) :=
  if m.is_end then
    .error (.logic_error "range error: Please check is_end() before point()")
  else
    match m.sequence_.waypoints[m.now_goal]? with
    | some w => .ok w.position
    | none => .error .invalid_dereference

/-- Member function `WaypointManager::radius` (lines 34-38). -/
def radius (m : WaypointManager R) : Except Thrown R :=
  if m.is_end then
    .error (.logic_error "range error: Please check is_end() before radius()")
  else
    match m.sequence_.waypoints[m.now_goal]? with
    | some w => .ok w.radius
    | none => .error .invalid_dereference

/-- Member function `WaypointManager::next` (lines 40-46): the outcome and the object afterwards. -/
def next (m : WaypointManager R) : Except Thrown Bool × WaypointManager R :=
  if m.is_end then
    (.error (.logic_error "range error: Please check is_end() before next()"), m)
  else
    let m1 : WaypointManager R := { m with now_goal := m.now_goal + 1 }
    if m1.now_goal == m1.sequence_.waypoints.length then
      (.ok false, m1)
    else
      (.ok true, m1)

/-- Member function `WaypointManager::get` (lines 53-58), deprecated. -/
def get (m : WaypointManager R) : Except Thrown (Waypoint R) :=
  if m.is_end then
    .error (.logic_error "range error: Please check is_end() before get()")
  else
    match m.sequence_.waypoints[m.now_goal]? with
    | some w => .ok w
    | none => .error .invalid_dereference

/-- The object after `k` consecutive calls of `next()`, stopping at the first call
that throws. -/
def next_times : Nat → WaypointManager R → WaypointManager R
  | 0, m => m
  | k + 1, m =>
    match m.next with
    | (.ok _, m1) => next_times k m1
    | (.error _, m1) => m1

end WaypointManager

/-- The translation part of `geometry_msgs::Vector3` that the lookup reads. -/
structure Translation (R : Type) where
  x : R
  y : R
deriving DecidableEq, Repr

/-- The member `transform.translation` of `geometry_msgs::TransformStamped`. -/
structure Transform (R : Type) where
  translation : Translation R
deriving DecidableEq, Repr

/-- The part of `geometry_msgs::TransformStamped` that the lookup reads. -/
structure TransformStamped (R : Type) where
  transform : Transform R
deriving DecidableEq, Repr

/-- The `tf2_ros::Buffer` as the node sees it: the answer of
`lookupTransform(parent, child, ros::Time(0))`, either a transform or the message of
the `tf2::TransformException` it throws. -/
structure Buffer (R : Type) where
  lookupTransform : String → String → Except String (TransformStamped R)

/-- The member of `class TfPositionManager` (line 86). -/
structure TfPositionManager (R : Type) where
  buffer_ : Buffer R

/-- Member function `TfPositionManager::operator()` (lines 76-83). -/
def TfPositionManager.call_operator {R : Type} (t : TfPositionManager R)
    (parent child : String) : Except Thrown (Point R) :=
  match t.buffer_.lookupTransform parent child with
  | .error what => .error (.transform_exception what)
  | .ok ts => .ok { x := ts.transform.translation.x, y := ts.transform.translation.y }

/-- The members of `class GoalSender` (lines 123-124). -/
structure GoalSender (R : Type) where
  point_manager_ : WaypointManager R
  lookupper_ : TfPositionManager R

namespace GoalSender

variable {R : Type}

/-- Member function `GoalSender::is_reach` (lines 109-121). -/
def is_reach [Sub R] [Mul R] [Add R] [LT R] [∀ a b : R, Decidable (a < b)]
    (g : GoalSender R) : Except Thrown Bool :=
  match g.lookupper_.call_operator "/map" "/base_link" with
  | .error e => .error e
  | .ok robot_point =>
    match g.point_manager_.point with
    | .error e => .error e
    | .ok waypoint_point =>
      let sqr_distance := squaring_distance robot_point waypoint_point
      match g.point_manager_.radius with
      | .error e => .error e
      | .ok radius =>
        let sqr_radius := radius * radius
        if sqr_distance < sqr_radius then .ok true else .ok false

/-- Member function `GoalSender::once` (lines 99-106): the outcome and the object afterwards. -/
def once [Sub R] [Mul R] [Add R] [LT R] [∀ a b : R, Decidable (a < b)]
    (g : GoalSender R) : Except Thrown Unit × GoalSender R :=
  if g.point_manager_.is_end then
    (.ok (), g)
  else
    match g.is_reach with
    | .error e => (.error e, g)
    | .ok false => (.ok (), g)
    | .ok true =>
      match g.point_manager_.next with
      | (.error e, m1) => (.error e, { g with point_manager_ := m1 })
      | (.ok _, m1) => (.ok (), { g with point_manager_ := m1 })

/-- The loop of `main` (lines 145-148) as seen by the `GoalSender`: before each tick
the transform buffer has its current content, then `once()` runs; an exception
leaving `once()` ends the loop. -/
def main_loop [Sub R] [Mul R] [Add R] [LT R] [∀ a b : R, Decidable (a < b)]
    (g : GoalSender R) : List (Buffer R) → Except Thrown Unit × GoalSender R
  | [] => (.ok (), g)
  | b :: bs =>
    match once { g with lookupper_ := { buffer_ := b } } with
    | (.error e, g1) => (.error e, g1)
    | (.ok _, g1) => main_loop g1 bs

end GoalSender

/-! ## The arithmetic of `double` -/

/-- A value of the C++ type `double` (IEEE 754 binary64): the finite number `m * 2 ^ e`,
an infinity with its sign, or a NaN. The two zeros are not told apart, since the
operations the node uses (`-`, `*`, `+`, `<`) give the same answers on both. -/
inductive Binary64 where
  | finite (m : Int) (e : Int)
  | inf (negative : Bool)
  | nan
deriving DecidableEq, Repr

namespace Binary64

/-- The number of binary digits of `a`, counted within `fuel` halvings. -/
def bit_length_aux : Nat → Nat → Nat
  | 0, _ => 0
  | fuel + 1, a => if a = 0 then 0 else bit_length_aux fuel (a / 2) + 1

/-- The number of binary digits of `a` (`0` for `0`); `a` halvings always suffice. -/
def bit_length (a : Nat) : Nat :=
  bit_length_aux a a

/-- Rounding of the exact number `m * 2 ^ e` to the nearest `double`, ties to the even
significand: the significand keeps 53 bits, the unit in the last place is never below
`2 ^ (-1074)`, and a result of magnitude `2 ^ 1024` or more (one whose bit length plus
exponent exceeds `1024`) becomes an infinity. -/
def round (m : Int) (e : Int) : Binary64 :=
  let a := m.natAbs
  if a = 0 then .finite 0 0
  else
    let ulp : Int := max (e + (bit_length a : Int) - 53) (-1074)
    let drop : Nat := (ulp - e).toNat
    let q := a / 2 ^ drop
    let r := a % 2 ^ drop
    let q1 := if 2 ^ drop < 2 * r ∨ (2 * r = 2 ^ drop ∧ q % 2 = 1) then q + 1 else q
    let e1 : Int := if ulp ≤ e then e else ulp
    if q1 ≠ 0 ∧ 1024 < (bit_length q1 : Int) + e1 then .inf (decide (m < 0))
    else if m < 0 then .finite (-(q1 : Int)) e1
    else .finite (q1 : Int) e1

/-- The exact sum `m1 * 2 ^ e1 + m2 * 2 ^ e2` as an integer times `2 ^ min e1 e2`. -/
def exact_sum (m1 e1 m2 e2 : Int) : Int :=
  m1 * 2 ^ (e1 - min e1 e2).toNat + m2 * 2 ^ (e2 - min e1 e2).toNat

/-- The operator `+` of `double`. -/
def add : Binary64 → Binary64 → Binary64
  | .finite m1 e1, .finite m2 e2 => round (exact_sum m1 e1 m2 e2) (min e1 e2)
  | .finite _ _, .inf s => .inf s
  | .inf s, .finite _ _ => .inf s
  | .inf s1, .inf s2 => if s1 = s2 then .inf s1 else .nan
  | .nan, _ => .nan
  | _, .nan => .nan

/-- The unary operator `-` of `double`. -/
def neg : Binary64 → Binary64
  | .finite m e => .finite (-m) e
  | .inf s => .inf (!s)
  | .nan => .nan

/-- The binary operator `-` of `double`. -/
def sub (a b : Binary64) : Binary64 :=
  add a (neg b)

/-- The operator `*` of `double`. -/
def mul : Binary64 → Binary64 → Binary64
  | .finite m1 e1, .finite m2 e2 => round (m1 * m2) (e1 + e2)
  | .finite m _, .inf s => if m = 0 then .nan else .inf (decide (m < 0) != s)
  | .inf s, .finite m _ => if m = 0 then .nan else .inf (s != decide (m < 0))
  | .inf s1, .inf s2 => .inf (s1 != s2)
  | .nan, _ => .nan
  | _, .nan => .nan

/-- The operator `<` of `double`; every comparison with a NaN is false. -/
def lt : Binary64 → Binary64 → Bool
  | .finite m1 e1, .finite m2 e2 =>
    decide (m1 * 2 ^ (e1 - min e1 e2).toNat < m2 * 2 ^ (e2 - min e1 e2).toNat)
  | .finite _ _, .inf s => !s
  | .inf s, .finite _ _ => s
  | .inf s1, .inf s2 => s1 && !s2
  | .nan, _ => false
  | _, .nan => false

/-- Whether the value is one a `double` can hold: rounding it changes nothing. -/
def representable : Binary64 → Bool
  | .finite m e =>
    match round m e with
    | .finite m1 e1 =>
      decide (m * 2 ^ (e - min e e1).toNat = m1 * 2 ^ (e1 - min e e1).toNat)
    | _ => false
  | _ => true

/-- The exact value of a finite `double` as a rational number (`0` for the others). -/
def toRat : Binary64 → ℚ
  | .finite m e => (m : ℚ) * (2 : ℚ) ^ e
  | _ => 0

end Binary64

instance : Add Binary64 := ⟨Binary64.add⟩

instance : Sub Binary64 := ⟨Binary64.sub⟩

instance : Mul Binary64 := ⟨Binary64.mul⟩

instance : Neg Binary64 := ⟨Binary64.neg⟩

instance : LT Binary64 := ⟨fun a b => Binary64.lt a b = true⟩

instance (a b : Binary64) : Decidable (a < b) :=
  inferInstanceAs (Decidable (Binary64.lt a b = true))

/-! ## Sample data -/

/-- A buffer in which every lookup answers the translation `(x, y)`. -/
def Buffer.at_position {R : Type} (x y : R) : Buffer R :=
  { lookupTransform := fun _ _ => .ok { transform := { translation := { x := x, y := y } } } }

/-- A buffer in which every lookup throws. -/
def Buffer.unavailable {R : Type} : Buffer R :=
  { lookupTransform := fun _ _ => .error "lookup would require extrapolation" }

/-- The two waypoints of the second scenario, with the radii scaled to integers:
`(0,0)` with radius `2` and `(10,10)` with radius `1`. -/
def sample_waypoints : List (Waypoint Int) :=
  [{ position := { x := 0, y := 0 }, radius := 2 },
   { position := { x := 10, y := 10 }, radius := 1 }]

/-- A manager holding `sample_waypoints` with the cursor on the element of offset `k`. -/
def sample_manager (k : Nat) : WaypointManager Int :=
  { sequence_ := { waypoints := sample_waypoints }, now_goal := k }

/-- A sender on `sample_manager k` whose lookups answer `(x, y)`. -/
def sample_sender (k : Nat) (x y : Int) : GoalSender Int :=
  { point_manager_ := sample_manager k, lookupper_ := { buffer_ := Buffer.at_position x y } }

/-- A sender on `sample_manager k` whose lookups throw. -/
def sample_sender_unavailable (k : Nat) : GoalSender Int :=
  { point_manager_ := sample_manager k, lookupper_ := { buffer_ := Buffer.unavailable } }

/-- A request carrying `sample_waypoints`. -/
def sample_request : ApplyGoalsRequest Int :=
  { goals := { waypoints := sample_waypoints } }

/-- A sender over `double` on a single waypoint at `(0,0)` of radius `r`, with the
lookups answering the robot position `(x, y)`. -/
def binary64_sender (r x y : Binary64) : GoalSender Binary64 :=
  { point_manager_ :=
      { sequence_ := { waypoints :=
          [{ position := { x := .finite 0 0, y := .finite 0 0 }, radius := r }] },
        now_goal := 0 },
    lookupper_ := { buffer_ := Buffer.at_position x y } }

/-- The `double` nearest to `0.9`. -/
def double_0_9 : Binary64 := .finite 8106479329266893 (-53)

/-- The `double` nearest to `1.2`. -/
def double_1_2 : Binary64 := .finite 5404319552844595 (-52)

/-- The `double` `1.5`. -/
def double_1_5 : Binary64 := .finite 3 (-1)

/-- The `double` nearest to `0.006`. -/
def double_0_006 : Binary64 := .finite 3458764513820541 (-59)

/-- The `double` nearest to `0.008`. -/
def double_0_008 : Binary64 := .finite 1152921504606847 (-57)

/-- The `double` nearest to `0.01`. -/
def double_0_01 : Binary64 := .finite 5764607523034235 (-59)

/-! ## Interleavings of the operations on one manager -/

/-- An operation applied to a manager: the goal-update handler, `next()`, or a tick of
`GoalSender::once()` under some content of the transform buffer. -/
inductive Event (R : Type) where
  | apply_goals (req : ApplyGoalsRequest R) (res : ApplyGoalsResponse)
  | next
  | once (tfBuffer : Buffer R)

/-- The manager after one operation; a call that throws leaves what it returns with. -/
def WaypointManager.step {R : Type} [Sub R] [Mul R] [Add R] [LT R]
    [∀ a b : R, Decidable (a < b)] (m : WaypointManager R) : Event R → WaypointManager R
  | .apply_goals req res => (m.call_operator req res).2.2
  | .next => m.next.2
  | .once tfBuffer =>
    (GoalSender.once { point_manager_ := m, lookupper_ := { buffer_ := tfBuffer } }).2.point_manager_

/-- The manager after a sequence of operations, applied from left to right. -/
def WaypointManager.run {R : Type} [Sub R] [Mul R] [Add R] [LT R]
    [∀ a b : R, Decidable (a < b)] (m : WaypointManager R) :
    List (Event R) → WaypointManager R
  | [] => m
  | e :: es => WaypointManager.run (m.step e) es

/-- The manager whose waypoints carry the opposite radii, the cursor being the same. -/
def WaypointManager.negate_radii {R : Type} [Neg R] (m : WaypointManager R) :
    WaypointManager R :=
  { sequence_ := { waypoints :=
      m.sequence_.waypoints.map (fun w => { w with radius := -w.radius }) },
    now_goal := m.now_goal }

/-- The sender whose manager carries the opposite radii. -/
def GoalSender.negate_radii {R : Type} [Neg R] (g : GoalSender R) : GoalSender R :=
  { g with point_manager_ := g.point_manager_.negate_radii }

/-! ## Shared lemmas -/

section Lemmas

variable {R : Type}

theorem WaypointManager.is_end_iff (m : WaypointManager R) :
    m.is_end = true ↔ m.sequence_.waypoints.length = m.now_goal := by
  simp [WaypointManager.is_end]

theorem WaypointManager.is_end_eq_false_iff (m : WaypointManager R) :
    m.is_end = false ↔ m.sequence_.waypoints.length ≠ m.now_goal := by
  simp [WaypointManager.is_end]

theorem WaypointManager.point_of_active (m : WaypointManager R) (wp : Waypoint R)
    (hend : m.is_end = false) (hact : m.sequence_.waypoints[m.now_goal]? = some wp) :
    m.point = .ok wp.position := by
  simp [WaypointManager.point, hend, hact]

theorem WaypointManager.radius_of_active (m : WaypointManager R) (wp : Waypoint R)
    (hend : m.is_end = false) (hact : m.sequence_.waypoints[m.now_goal]? = some wp) :
    m.radius = .ok wp.radius := by
  simp [WaypointManager.radius, hend, hact]

theorem WaypointManager.next_of_not_end (m : WaypointManager R) (hend : m.is_end = false) :
    m.next = (.ok (!(decide (m.now_goal + 1 = m.sequence_.waypoints.length))),
      { m with now_goal := m.now_goal + 1 }) := by
  by_cases h : m.now_goal + 1 = m.sequence_.waypoints.length <;>
    simp [WaypointManager.next, hend, h]

theorem WaypointManager.next_of_end (m : WaypointManager R) (hend : m.is_end = true) :
    m.next =
      (.error (.logic_error "range error: Please check is_end() before next()"), m) := by
  simp [WaypointManager.next, hend]

theorem WaypointManager.next_times_from (S : List (Waypoint R)) (k c : Nat)
    (h : c + k ≤ S.length) :
    WaypointManager.next_times k { sequence_ := { waypoints := S }, now_goal := c } =
      { sequence_ := { waypoints := S }, now_goal := c + k } := by
  induction k generalizing c with
  | zero => rfl
  | succ k ih =>
    have hend : ({ sequence_ := { waypoints := S }, now_goal := c } :
        WaypointManager R).is_end = false := by
      rw [WaypointManager.is_end_eq_false_iff]
      show S.length ≠ c
      omega
    rw [WaypointManager.next_times, WaypointManager.next_of_not_end _ hend]
    show WaypointManager.next_times k { sequence_ := { waypoints := S }, now_goal := c + 1 } = _
    rw [ih (c + 1) (by omega)]
    congr 1
    omega

variable [Sub R] [Mul R] [Add R] [LT R] [∀ a b : R, Decidable (a < b)]

/-- The tick on an active waypoint with a successful lookup, in the arithmetic of the code. -/
theorem GoalSender.once_of_lookup (g : GoalSender R) (wp : Waypoint R)
    (ts : TransformStamped R)
    (hend : g.point_manager_.is_end = false)
    (hact : g.point_manager_.sequence_.waypoints[g.point_manager_.now_goal]? = some wp)
    (hlook : g.lookupper_.buffer_.lookupTransform "/map" "/base_link" = .ok ts) :
    g.once =
      if squaring_distance
          ({ x := ts.transform.translation.x, y := ts.transform.translation.y } : Point R)
          wp.position < wp.radius * wp.radius then
        (.ok (), { g with point_manager_ :=
          { g.point_manager_ with now_goal := g.point_manager_.now_goal + 1 } })
      else
        (.ok (), g) := by
  have hp := WaypointManager.point_of_active _ wp hend hact
  have hr := WaypointManager.radius_of_active _ wp hend hact
  have hn := WaypointManager.next_of_not_end _ hend
  by_cases hc : squaring_distance
      ({ x := ts.transform.translation.x, y := ts.transform.translation.y } : Point R)
      wp.position < wp.radius * wp.radius
  · simp [GoalSender.once, GoalSender.is_reach, TfPositionManager.call_operator, hend, hlook,
      hp, hr, hn, hc]
  · simp [GoalSender.once, GoalSender.is_reach, TfPositionManager.call_operator, hend, hlook,
      hp, hr, hc]

/-- The tick on a manager at end: nothing is looked up and nothing changes. -/
theorem GoalSender.once_of_end (g : GoalSender R) (hend : g.point_manager_.is_end = true) :
    g.once = (.ok (), g) := by
  simp [GoalSender.once, hend]

/-- The tick on a manager not at end whose lookup throws. -/
theorem GoalSender.once_of_lookup_error (g : GoalSender R) (what : String)
    (hend : g.point_manager_.is_end = false)
    (hlook : g.lookupper_.buffer_.lookupTransform "/map" "/base_link" = .error what) :
    g.once = (.error (.transform_exception what), g) := by
  simp [GoalSender.once, GoalSender.is_reach, TfPositionManager.call_operator, hend, hlook]

end Lemmas

/-! ## Further shared lemmas -/

section MoreLemmas

variable {R : Type}

theorem WaypointManager.not_end_of_active (m : WaypointManager R) (wp : Waypoint R)
    (hact : m.sequence_.waypoints[m.now_goal]? = some wp) : m.is_end = false := by
  rw [WaypointManager.is_end_eq_false_iff]
  have h := (List.getElem?_eq_some_iff.1 hact).1
  omega

variable [Sub R] [Mul R] [Add R] [LT R] [∀ a b : R, Decidable (a < b)]

/-- The reach test on an active waypoint with a successful lookup. -/
theorem GoalSender.is_reach_of_lookup (g : GoalSender R) (wp : Waypoint R)
    (ts : TransformStamped R)
    (hend : g.point_manager_.is_end = false)
    (hact : g.point_manager_.sequence_.waypoints[g.point_manager_.now_goal]? = some wp)
    (hlook : g.lookupper_.buffer_.lookupTransform "/map" "/base_link" = .ok ts) :
    g.is_reach = .ok (decide (squaring_distance
      ({ x := ts.transform.translation.x, y := ts.transform.translation.y } : Point R)
      wp.position < wp.radius * wp.radius)) := by
  have hp := WaypointManager.point_of_active _ wp hend hact
  have hr := WaypointManager.radius_of_active _ wp hend hact
  by_cases hc : squaring_distance
      ({ x := ts.transform.translation.x, y := ts.transform.translation.y } : Point R)
      wp.position < wp.radius * wp.radius <;>
    simp [GoalSender.is_reach, TfPositionManager.call_operator, hlook, hp, hr, hc]

/-- The reach test never ends with the `logic_error` on a manager that is not at end. -/
theorem GoalSender.is_reach_not_logic_error (g : GoalSender R)
    (hend : g.point_manager_.is_end = false) (what : String) :
    g.is_reach ≠ .error (.logic_error what) := by
  cases hlook : g.lookupper_.buffer_.lookupTransform "/map" "/base_link" with
  | error e =>
    simp [GoalSender.is_reach, TfPositionManager.call_operator, hlook]
  | ok ts =>
    cases hact : g.point_manager_.sequence_.waypoints[g.point_manager_.now_goal]? with
    | none =>
      simp [GoalSender.is_reach, TfPositionManager.call_operator, hlook,
        WaypointManager.point, hend, hact]
    | some wp =>
      rw [GoalSender.is_reach_of_lookup g wp ts hend hact hlook]
      intro h
      cases h

/-- What a tick can do to the sender: nothing, or the step of `next()` on a manager that
is not at end. -/
theorem GoalSender.once_state_cases (g : GoalSender R) :
    g.once.2 = g ∨
    (g.point_manager_.is_end = false ∧
      g.once = (.ok (), { g with point_manager_ :=
        { g.point_manager_ with now_goal := g.point_manager_.now_goal + 1 } })) := by
  cases hend : g.point_manager_.is_end with
  | true => left; rw [GoalSender.once_of_end g hend]
  | false =>
    have hn := WaypointManager.next_of_not_end _ hend
    cases hr : g.is_reach with
    | error e => left; simp [GoalSender.once, hend, hr]
    | ok b =>
      cases b with
      | false => left; simp [GoalSender.once, hend, hr]
      | true => right; simp [GoalSender.once, hend, hr, hn]

/-- Every operation keeps the sequence and keeps the cursor within `[0, length]`. -/
theorem WaypointManager.step_cursor_le (m : WaypointManager R) (e : Event R)
    (h : m.now_goal ≤ m.sequence_.waypoints.length) :
    (m.step e).now_goal ≤ (m.step e).sequence_.waypoints.length := by
  cases e with
  | apply_goals req res => exact h
  | next =>
    show m.next.2.now_goal ≤ m.next.2.sequence_.waypoints.length
    cases hend : m.is_end with
    | true => rw [WaypointManager.next_of_end m hend]; exact h
    | false =>
      rw [WaypointManager.next_of_not_end m hend]
      have hne := (WaypointManager.is_end_eq_false_iff m).1 hend
      show m.now_goal + 1 ≤ m.sequence_.waypoints.length
      omega
  | once tfBuffer =>
    show (GoalSender.once { point_manager_ := m, lookupper_ := { buffer_ := tfBuffer } }
      ).2.point_manager_.now_goal ≤ (GoalSender.once
        { point_manager_ := m, lookupper_ := { buffer_ := tfBuffer } }
      ).2.point_manager_.sequence_.waypoints.length
    rcases GoalSender.once_state_cases
      { point_manager_ := m, lookupper_ := { buffer_ := tfBuffer } } with h1 | ⟨hend, h1⟩
    · rw [h1]; exact h
    · rw [h1]
      have hne := (WaypointManager.is_end_eq_false_iff m).1 hend
      show m.now_goal + 1 ≤ m.sequence_.waypoints.length
      omega

theorem WaypointManager.run_cursor_le (m : WaypointManager R) (es : List (Event R))
    (h : m.now_goal ≤ m.sequence_.waypoints.length) :
    (m.run es).now_goal ≤ (m.run es).sequence_.waypoints.length := by
  induction es generalizing m with
  | nil => exact h
  | cons e es ih => exact ih (m.step e) (WaypointManager.step_cursor_le m e h)

end MoreLemmas

section TickLemmas

variable {R : Type} [Sub R] [Mul R] [Add R] [LT R] [∀ a b : R, Decidable (a < b)]

/-- Ticks under an unchanged buffer content do not move a sender whose active waypoint
is not reached. -/
theorem GoalSender.main_loop_not_reached (g : GoalSender R) (wp : Waypoint R)
    (ts : TransformStamped R)
    (hact : g.point_manager_.sequence_.waypoints[g.point_manager_.now_goal]? = some wp)
    (hlook : g.lookupper_.buffer_.lookupTransform "/map" "/base_link" = .ok ts)
    (hc : ¬ squaring_distance
      ({ x := ts.transform.translation.x, y := ts.transform.translation.y } : Point R)
      wp.position < wp.radius * wp.radius) (n : Nat) :
    g.main_loop (List.replicate n g.lookupper_.buffer_) = (.ok (), g) := by
  induction n with
  | zero => rfl
  | succ n ih =>
    have hend := WaypointManager.not_end_of_active _ wp hact
    have h1 : g.once = (.ok (), g) := by
      rw [GoalSender.once_of_lookup g wp ts hend hact hlook, if_neg hc]
    show GoalSender.main_loop g (g.lookupper_.buffer_ :: List.replicate n g.lookupper_.buffer_)
      = _
    have h2 : GoalSender.main_loop g
        (g.lookupper_.buffer_ :: List.replicate n g.lookupper_.buffer_)
        = GoalSender.main_loop g (List.replicate n g.lookupper_.buffer_) := by
      have h3 : GoalSender.once { g with lookupper_ := { buffer_ := g.lookupper_.buffer_ } }
          = (.ok (), g) := h1
      simp only [GoalSender.main_loop, h3]
    rw [h2, ih]

end TickLemmas

section SignLemmas

variable {R : Type} [Neg R]

theorem WaypointManager.negate_radii_is_end (m : WaypointManager R) :
    m.negate_radii.is_end = m.is_end := by
  simp [WaypointManager.is_end, WaypointManager.negate_radii]

theorem WaypointManager.negate_radii_next (m : WaypointManager R) :
    m.negate_radii.next = (m.next.1, m.next.2.negate_radii) := by
  cases hend : m.is_end with
  | true =>
    have h1 : m.negate_radii.is_end = true := by
      rw [WaypointManager.negate_radii_is_end, hend]
    rw [WaypointManager.next_of_end _ h1, WaypointManager.next_of_end _ hend]
  | false =>
    have h1 : m.negate_radii.is_end = false := by
      rw [WaypointManager.negate_radii_is_end, hend]
    rw [WaypointManager.next_of_not_end _ h1, WaypointManager.next_of_not_end _ hend]
    simp [WaypointManager.negate_radii]

theorem WaypointManager.negate_radii_point (m : WaypointManager R) :
    m.negate_radii.point = m.point := by
  have he := WaypointManager.negate_radii_is_end m
  unfold WaypointManager.point
  rw [he]
  cases m.is_end with
  | true => rfl
  | false =>
    cases hact : m.sequence_.waypoints[m.now_goal]? <;>
      simp [WaypointManager.negate_radii, hact]

variable [Sub R] [Mul R] [Add R] [LT R] [∀ a b : R, Decidable (a < b)]

/-- The reach test does not see the sign of the radii, in any arithmetic in which a
number and its opposite have the same square. -/
theorem GoalSender.negate_radii_is_reach (g : GoalSender R)
    (hneg : ∀ r : R, -r * -r = r * r) :
    g.negate_radii.is_reach = g.is_reach := by
  have hl : g.negate_radii.lookupper_ = g.lookupper_ := rfl
  have hp : g.negate_radii.point_manager_.point = g.point_manager_.point :=
    WaypointManager.negate_radii_point _
  cases hlook : g.lookupper_.buffer_.lookupTransform "/map" "/base_link" with
  | error e =>
    simp [GoalSender.is_reach, hl, TfPositionManager.call_operator, hlook]
  | ok ts =>
    cases hend : g.point_manager_.is_end with
    | true =>
      have hpt : g.point_manager_.point
          = .error (.logic_error "range error: Please check is_end() before point()") := by
        simp [WaypointManager.point, hend]
      simp [GoalSender.is_reach, hl, hp, hpt, TfPositionManager.call_operator, hlook]
    | false =>
      cases hact : g.point_manager_.sequence_.waypoints[g.point_manager_.now_goal]? with
      | none =>
        have hpt : g.point_manager_.point = .error .invalid_dereference := by
          simp [WaypointManager.point, hend, hact]
        simp [GoalSender.is_reach, hl, hp, hpt, TfPositionManager.call_operator, hlook]
      | some wp =>
        have hend2 : g.negate_radii.point_manager_.is_end = false := by
          show g.point_manager_.negate_radii.is_end = false
          rw [WaypointManager.negate_radii_is_end, hend]
        have hact2 : g.negate_radii.point_manager_.sequence_.waypoints[
            g.negate_radii.point_manager_.now_goal]?
            = some { wp with radius := -wp.radius } := by
          simp [GoalSender.negate_radii, WaypointManager.negate_radii, hact]
        rw [GoalSender.is_reach_of_lookup g wp ts hend hact hlook,
          GoalSender.is_reach_of_lookup g.negate_radii _ ts hend2 hact2 hlook]
        show Except.ok (decide (_ < -wp.radius * -wp.radius)) = _
        rw [hneg]

/-- The tick does not see the sign of the radii either. -/
theorem GoalSender.negate_radii_once (g : GoalSender R)
    (hneg : ∀ r : R, -r * -r = r * r) :
    g.negate_radii.once = (g.once.1, g.once.2.negate_radii) := by
  have hr := GoalSender.negate_radii_is_reach g hneg
  have hn := WaypointManager.negate_radii_next g.point_manager_
  have he := WaypointManager.negate_radii_is_end g.point_manager_
  cases hend : g.point_manager_.is_end with
  | true =>
    have h1 : g.negate_radii.point_manager_.is_end = true := by
      show g.point_manager_.negate_radii.is_end = true
      rw [he, hend]
    rw [GoalSender.once_of_end _ h1, GoalSender.once_of_end _ hend]
  | false =>
    have h1 : g.negate_radii.point_manager_.is_end = false := by
      show g.point_manager_.negate_radii.is_end = false
      rw [he, hend]
    have hn1 := WaypointManager.next_of_not_end _ hend
    have hn2 : g.negate_radii.point_manager_.next = _ := hn
    rw [hn1] at hn2
    cases hreach : g.is_reach with
    | error e =>
      have h2 : g.negate_radii.is_reach = .error e := by rw [hr, hreach]
      simp [GoalSender.once, hend, h1, hreach, h2]
    | ok b =>
      have h2 : g.negate_radii.is_reach = .ok b := by rw [hr, hreach]
      cases b with
      | false => simp [GoalSender.once, hend, h1, hreach, h2]
      | true =>
        simp [GoalSender.once, hend, h1, hreach, h2, hn1, hn2]
        rfl

end SignLemmas

/-! ## Facts about `double` -/

/-- No `double` is less than itself. -/
theorem Binary64.lt_irrefl (a : Binary64) : ¬ a < a := by
  show ¬ Binary64.lt a a = true
  cases a with
  | finite m e => simp [Binary64.lt]
  | inf s => cases s <;> simp [Binary64.lt]
  | nan => simp [Binary64.lt]

/-- A `double` and its opposite have the same square. -/
theorem Binary64.neg_mul_neg (r : Binary64) : -r * -r = r * r := by
  show Binary64.mul (Binary64.neg r) (Binary64.neg r) = Binary64.mul r r
  cases r with
  | finite m e =>
    show Binary64.round (-m * -m) (e + e) = Binary64.round (m * m) (e + e)
    rw [Int.neg_mul_neg]
  | inf s => cases s <;> rfl
  | nan => rfl

/-! ## Reach detection over exact arithmetic -/

/-- Reach detection over exact arithmetic (any linearly ordered commutative ring, which
`double` is not): on a manager that is not at end, with active waypoint `wp` and a
successful lookup of the robot position `p`, `once()` returns normally and leaves the
manager as `next()` leaves it exactly when `(p.x-w.x)^2 + (p.y-w.y)^2 < r^2`, and
untouched otherwise, equality included. -/
theorem once_advances_iff_inside_radius {R : Type} [LinearOrderedCommRing R]
    (g : GoalSender R) (wp : Waypoint R) (ts : TransformStamped R)
    (hend : g.point_manager_.is_end = false)
    (hact : g.point_manager_.sequence_.waypoints[g.point_manager_.now_goal]? = some wp)
    (hlook : g.lookupper_.buffer_.lookupTransform "/map" "/base_link" = .ok ts) :
    g.once.1 = .ok () ∧
    g.once.2.lookupper_ = g.lookupper_ ∧
    g.once.2.point_manager_ =
      (if (ts.transform.translation.x - wp.position.x) ^ 2
            + (ts.transform.translation.y - wp.position.y) ^ 2 < wp.radius ^ 2
        then g.point_manager_.next.2 else g.point_manager_) ∧
    (g.once.2.point_manager_.now_goal = g.point_manager_.now_goal + 1 ↔
      (ts.transform.translation.x - wp.position.x) ^ 2
        + (ts.transform.translation.y - wp.position.y) ^ 2 < wp.radius ^ 2) ∧
    ((ts.transform.translation.x - wp.position.x) ^ 2
        + (ts.transform.translation.y - wp.position.y) ^ 2 = wp.radius ^ 2 →
      g.once.2 = g) := by
  have h := GoalSender.once_of_lookup g wp ts hend hact hlook
  have hn := WaypointManager.next_of_not_end _ hend
  simp only [squaring_distance, ← sq] at h
  by_cases hc : (ts.transform.translation.x - wp.position.x) ^ 2
      + (ts.transform.translation.y - wp.position.y) ^ 2 < wp.radius ^ 2
  · rw [if_pos hc] at h
    refine ⟨by simp [h], by simp [h], by simp [h, hn, hc], by simp [h, hc], ?_⟩
    intro heq
    exact absurd hc (by rw [heq]; exact lt_irrefl _)
  · rw [if_neg hc] at h
    simp [h, hc]

/-- The exact reading on integers: the robot at `(1,1)` is inside the radius `2` of the waypoint `(0,0)`. -/
theorem once_advances_iff_inside_radius_witness :
    (sample_sender 0 1 1).point_manager_.is_end = false ∧
    (sample_sender 0 1 1).once.1 = .ok () ∧
    ((sample_sender 0 1 1).once.2.point_manager_.now_goal
        = (sample_sender 0 1 1).point_manager_.now_goal + 1 ↔
      ((1 : Int) - 0) ^ 2 + ((1 : Int) - 0) ^ 2 < (2 : Int) ^ 2) :=
  have h := once_advances_iff_inside_radius (sample_sender 0 1 1)
    { position := { x := 0, y := 0 }, radius := 2 }
    { transform := { translation := { x := 1, y := 1 } } } rfl rfl rfl
  ⟨rfl, h.1, h.2.2.2.1⟩

/-- The sign of the radius over exact arithmetic (any linearly ordered commutative ring,
which `double` is not): replacing every radius by its opposite changes neither the
answer of `is_reach()` nor the outcome of `once()`, and on an active waypoint with a
successful lookup `is_reach()` answers `true` exactly when the robot is inside the disc
of radius `|r|`. -/
theorem radius_sign_is_ignored {R : Type} [LinearOrderedCommRing R] (g : GoalSender R) :
    g.negate_radii.is_reach = g.is_reach ∧
    g.negate_radii.once.1 = g.once.1 ∧
    g.negate_radii.once.2 = g.once.2.negate_radii ∧
    g.negate_radii.once.2.point_manager_.now_goal = g.once.2.point_manager_.now_goal ∧
    (∀ (wp : Waypoint R) (ts : TransformStamped R),
      g.point_manager_.sequence_.waypoints[g.point_manager_.now_goal]? = some wp →
      g.lookupper_.buffer_.lookupTransform "/map" "/base_link" = .ok ts →
      (g.is_reach = .ok true ↔
        (ts.transform.translation.x - wp.position.x) ^ 2
          + (ts.transform.translation.y - wp.position.y) ^ 2 < |wp.radius| ^ 2)) := by
  have ho := GoalSender.negate_radii_once g (fun r => neg_mul_neg r r)
  refine ⟨GoalSender.negate_radii_is_reach g (fun r => neg_mul_neg r r), by rw [ho],
    by rw [ho], by rw [ho]; rfl, ?_⟩
  intro wp ts hact hlook
  have hend := WaypointManager.not_end_of_active _ wp hact
  rw [GoalSender.is_reach_of_lookup g wp ts hend hact hlook, sq_abs]
  simp [squaring_distance, sq]

/-- The exact reading on integers: the first sample waypoint with radius `2` or `-2` accepts the robot at
`(1,1)`. -/
theorem radius_sign_is_ignored_witness :
    (sample_sender 0 1 1).negate_radii.is_reach = (sample_sender 0 1 1).is_reach ∧
    ((sample_sender 0 1 1).is_reach = .ok true ↔
      ((1 : Int) - 0) ^ 2 + ((1 : Int) - 0) ^ 2 < |(2 : Int)| ^ 2) :=
  have h := radius_sign_is_ignored (sample_sender 0 1 1)
  ⟨h.1, h.2.2.2.2 { position := { x := 0, y := 0 }, radius := 2 }
    { transform := { translation := { x := 1, y := 1 } } } rfl rfl⟩

/-! ## Claims -/

set_option maxRecDepth 100000 in
/-- C1 fails on the code, which computes in `double`. With the waypoint at `(0,0)`:
the robot at the doubles nearest to `(0.9, 1.2)` is strictly inside the radius `1.5` in
exact arithmetic, yet the computed test is `2.25 < 2.25` and `once()` does not advance;
the robot at the doubles nearest to `(0.006, 0.008)` is exactly at the distance of the
radius nearest to `0.01`, yet the computed squared distance is below the computed
squared radius and `once()` advances. -/
theorem once_binary64_differs_from_exact_test :
    (double_0_9.representable = true ∧ double_1_2.representable = true ∧
      double_1_5.representable = true) ∧
    ((double_0_9.toRat - 0) ^ 2 + (double_1_2.toRat - 0) ^ 2 < double_1_5.toRat ^ 2 ∧
      (binary64_sender double_1_5 double_0_9 double_1_2).once
        = (.ok (), binary64_sender double_1_5 double_0_9 double_1_2)) ∧
    (double_0_006.representable = true ∧ double_0_008.representable = true ∧
      double_0_01.representable = true) ∧
    ((double_0_006.toRat - 0) ^ 2 + (double_0_008.toRat - 0) ^ 2 = double_0_01.toRat ^ 2 ∧
      (binary64_sender double_0_01 double_0_006 double_0_008).once.2.point_manager_.now_goal
        = (binary64_sender double_0_01 double_0_006 double_0_008).point_manager_.now_goal
          + 1) := by
  refine ⟨⟨by decide, by decide, by decide⟩, ⟨?_, rfl⟩, ⟨by decide, by decide, by decide⟩,
    ⟨?_, rfl⟩⟩
  · norm_num [double_0_9, double_1_2, double_1_5, Binary64.toRat]
  · norm_num [double_0_006, double_0_008, double_0_01, Binary64.toRat]

/-- C1 as amended. Reach detection in the arithmetic of the code: on a manager that is
not at end, with active waypoint `wp` and a successful lookup of the robot position `p`,
`once()` returns normally and leaves the manager as `next()` leaves it exactly when the
computed value `squaring_distance(p, w)` is less than the computed product `r * r`, and
untouched otherwise; hence the cursor moves on by one if and only if that computed test
passes, and it does not move when the two computed values are equal (in an arithmetic
where nothing is less than itself, as in `double`). -/
theorem once_advances_iff_computed_test {R : Type}
    [Sub R] [Mul R] [Add R] [LT R] [∀ a b : R, Decidable (a < b)]
    (g : GoalSender R) (wp : Waypoint R) (ts : TransformStamped R)
    (hend : g.point_manager_.is_end = false)
    (hact : g.point_manager_.sequence_.waypoints[g.point_manager_.now_goal]? = some wp)
    (hlook : g.lookupper_.buffer_.lookupTransform "/map" "/base_link" = .ok ts) :
    g.once.1 = .ok () ∧
    g.once.2.lookupper_ = g.lookupper_ ∧
    g.once.2.point_manager_ =
      (if squaring_distance
            ({ x := ts.transform.translation.x, y := ts.transform.translation.y } : Point R)
            wp.position < wp.radius * wp.radius
        then g.point_manager_.next.2 else g.point_manager_) ∧
    (g.once.2.point_manager_.now_goal = g.point_manager_.now_goal + 1 ↔
      squaring_distance
        ({ x := ts.transform.translation.x, y := ts.transform.translation.y } : Point R)
        wp.position < wp.radius * wp.radius) ∧
    (¬ squaring_distance
        ({ x := ts.transform.translation.x, y := ts.transform.translation.y } : Point R)
        wp.position < wp.radius * wp.radius → g.once.2 = g) ∧
    ((∀ a : R, ¬ a < a) →
      squaring_distance
        ({ x := ts.transform.translation.x, y := ts.transform.translation.y } : Point R)
        wp.position = wp.radius * wp.radius → g.once.2 = g) := by
  have h := GoalSender.once_of_lookup g wp ts hend hact hlook
  have hn := WaypointManager.next_of_not_end _ hend
  by_cases hc : squaring_distance
      ({ x := ts.transform.translation.x, y := ts.transform.translation.y } : Point R)
      wp.position < wp.radius * wp.radius
  · rw [if_pos hc] at h
    refine ⟨by rw [h], by rw [h], by rw [h, if_pos hc, hn], by simp [h, hc],
      fun hnot => absurd hc hnot, ?_⟩
    intro hirr heq
    rw [heq] at hc
    exact absurd hc (hirr _)
  · rw [if_neg hc] at h
    refine ⟨by rw [h], by rw [h], by rw [h, if_neg hc], by simp [h, hc],
      fun _ => by rw [h], fun _ _ => by rw [h]⟩

set_option maxRecDepth 100000 in
/-- Witness of C1 as amended, in `double`: the waypoint `(0,0)` with the radius nearest
to `0.01` and the robot at the doubles nearest to `(0.006, 0.008)`; the computed test
passes and the cursor moves on by one. -/
theorem once_advances_iff_computed_test_witness :
    (binary64_sender double_0_01 double_0_006 double_0_008).point_manager_.is_end = false ∧
    (binary64_sender double_0_01 double_0_006 double_0_008).once.1 = .ok () ∧
    ((binary64_sender double_0_01 double_0_006 double_0_008).once.2.point_manager_.now_goal
        = (binary64_sender double_0_01 double_0_006 double_0_008).point_manager_.now_goal + 1
      ↔ squaring_distance ({ x := double_0_006, y := double_0_008 } : Point Binary64)
          { x := .finite 0 0, y := .finite 0 0 } < double_0_01 * double_0_01) :=
  have h := once_advances_iff_computed_test
    (binary64_sender double_0_01 double_0_006 double_0_008)
    { position := { x := .finite 0 0, y := .finite 0 0 }, radius := double_0_01 }
    { transform := { translation := { x := double_0_006, y := double_0_008 } } }
    rfl rfl rfl
  ⟨rfl, h.1, h.2.2.2.1⟩

/-- C2. Full traversal: starting from the cursor at offset `0` of a sequence `S` of length
`n`, for every `k < n` the manager after `k` calls of `next()` is not at end, `point()` and
`radius()` return the position and radius of `S[k]`, and the following call of `next()`
returns `true` when `k + 1 < n` and `false` when `k + 1 = n`; after `n` calls `is_end()`
is true. -/
theorem next_visits_every_waypoint_in_order {R : Type} (S : List (Waypoint R)) :
    (∀ (k : Nat) (hk : k < S.length),
      (WaypointManager.next_times k
          { sequence_ := { waypoints := S }, now_goal := 0 }).is_end = false ∧
      (WaypointManager.next_times k
          { sequence_ := { waypoints := S }, now_goal := 0 }).point = .ok S[k].position ∧
      (WaypointManager.next_times k
          { sequence_ := { waypoints := S }, now_goal := 0 }).radius = .ok S[k].radius ∧
      (WaypointManager.next_times k
          { sequence_ := { waypoints := S }, now_goal := 0 }).next.1
        = .ok (decide (k + 1 < S.length))) ∧
    (WaypointManager.next_times S.length
        { sequence_ := { waypoints := S }, now_goal := 0 }).is_end = true := by
  constructor
  · intro k hk
    rw [WaypointManager.next_times_from S k 0 (by omega)]
    have hend : ({ sequence_ := { waypoints := S }, now_goal := 0 + k } :
        WaypointManager R).is_end = false := by
      rw [WaypointManager.is_end_eq_false_iff]
      show S.length ≠ 0 + k
      omega
    have hact : ({ sequence_ := { waypoints := S }, now_goal := 0 + k } :
        WaypointManager R).sequence_.waypoints[0 + k]? = some S[k] := by
      simp [List.getElem?_eq_getElem hk]
    refine ⟨hend, WaypointManager.point_of_active _ _ hend hact,
      WaypointManager.radius_of_active _ _ hend hact, ?_⟩
    rw [WaypointManager.next_of_not_end _ hend]
    show Except.ok (!(decide (0 + k + 1 = S.length))) = _
    congr 1
    by_cases h : k + 1 < S.length
    · have : ¬ (0 + k + 1 = S.length) := by omega
      simp only [this, h, decide_False, decide_True, Bool.not_false]
    · have : 0 + k + 1 = S.length := by omega
      simp only [this, h, decide_False, decide_True, Bool.not_true]
  · rw [WaypointManager.next_times_from S S.length 0 (by omega)]
    rw [WaypointManager.is_end_iff]
    show S.length = 0 + S.length
    omega

/-- Witness of C2: the second element of `sample_waypoints` is visited after one call, and
the call made there is the last one. -/
theorem next_visits_every_waypoint_in_order_witness :
    (1 < sample_waypoints.length) ∧
    (WaypointManager.next_times 1 (sample_manager 0)).point = .ok { x := 10, y := 10 } ∧
    (WaypointManager.next_times 1 (sample_manager 0)).radius = .ok 1 ∧
    (WaypointManager.next_times 1 (sample_manager 0)).next.1 = .ok false ∧
    (WaypointManager.next_times 2 (sample_manager 0)).is_end = true :=
  have h := next_visits_every_waypoint_in_order sample_waypoints
  have h1 := h.1 1 (by decide)
  ⟨by decide, h1.2.1, h1.2.2.1, h1.2.2.2, h.2⟩

/-- C3, evaluated on the code: the service handler on the freshly constructed manager,
given a request that carries two waypoints, answers `true` and leaves the manager empty
and at end; the submitted sequence is not taken over. -/
theorem call_operator_ignores_request :
    (sample_request.goals.waypoints.length == 0) = false ∧
    ((WaypointManager.constructed.call_operator sample_request
        { success := false }).2.2.is_end = true) ∧
    ((WaypointManager.constructed.call_operator sample_request
        { success := false }).2.2.sequence_.waypoints = []) ∧
    ((WaypointManager.constructed.call_operator sample_request
        { success := false }).2.2 = WaypointManager.constructed) := by
  decide

/-- C4. Precondition violation: `point()`, `radius()` and `next()` each throw the
`logic_error` if and only if `is_end()` is true, and a call of `next()` that throws
leaves the manager as it was (`point()` and `radius()` are `const`). -/
theorem logic_error_iff_is_end {R : Type} (m : WaypointManager R) :
    ((∃ what, m.point = .error (.logic_error what)) ↔ m.is_end = true) ∧
    ((∃ what, m.radius = .error (.logic_error what)) ↔ m.is_end = true) ∧
    ((∃ what, m.next.1 = .error (.logic_error what)) ↔ m.is_end = true) ∧
    (∀ e, m.next.1 = .error e → m.next.2 = m) := by
  cases hend : m.is_end
  · have hn := WaypointManager.next_of_not_end m hend
    refine ⟨?_, ?_, ?_, ?_⟩
    · simp only [WaypointManager.point, hend]
      cases m.sequence_.waypoints[m.now_goal]? <;> simp
    · simp only [WaypointManager.radius, hend]
      cases m.sequence_.waypoints[m.now_goal]? <;> simp
    · simp [hn]
    · simp [hn]
  · have hn := WaypointManager.next_of_end m hend
    refine ⟨?_, ?_, ?_, ?_⟩
    · simp [WaypointManager.point, hend]
    · simp [WaypointManager.radius, hend]
    · simp [hn]
    · simp [hn]

/-- Witness of C4: the call of `next()` on `sample_manager 2`, which is at end, throws and
changes nothing. -/
theorem logic_error_iff_is_end_witness :
    (sample_manager 2).next.1
        = .error (.logic_error "range error: Please check is_end() before next()") ∧
      (sample_manager 2).next.2 = sample_manager 2 :=
  ⟨rfl, (logic_error_iff_is_end (sample_manager 2)).2.2.2 _ rfl⟩

/-- C5 fails on the code: the manager `sample_manager 0` is not at end, the lookup throws,
and `once()` does not return normally: it ends with the transform exception. -/
theorem once_lookup_failure_escapes :
    (sample_sender_unavailable 0).point_manager_.is_end = false ∧
    (sample_sender_unavailable 0).lookupper_.buffer_.lookupTransform "/map" "/base_link"
      = .error "lookup would require extrapolation" ∧
    (sample_sender_unavailable 0).once.1
      = .error (.transform_exception "lookup would require extrapolation") ∧
    (sample_sender_unavailable 0).once.1 ≠ .ok () := by
  refine ⟨rfl, rfl, rfl, ?_⟩
  intro h
  have h2 : (sample_sender_unavailable 0).once.1
      = .error (.transform_exception "lookup would require extrapolation") := rfl
  rw [h2] at h
  cases h

/-- C5 as amended. On a manager that is not at end, when the lookup of "/map" to
"/base_link" throws a transform exception, `once()` has no handler for it: the call ends
with that same exception, which reaches the caller of `once()`, and the sender is left
as it was. -/
theorem once_propagates_transform_exception {R : Type}
    [Sub R] [Mul R] [Add R] [LT R] [∀ a b : R, Decidable (a < b)]
    (g : GoalSender R) (what : String)
    (hend : g.point_manager_.is_end = false)
    (hlook : g.lookupper_.buffer_.lookupTransform "/map" "/base_link" = .error what) :
    g.once.1 = .error (.transform_exception what) ∧ g.once.1 ≠ .ok () ∧ g.once.2 = g := by
  rw [GoalSender.once_of_lookup_error g what hend hlook]
  refine ⟨rfl, ?_, rfl⟩
  intro h
  cases h

/-- Witness of C5 as amended, on `sample_manager 1` with a lookup that throws. -/
theorem once_propagates_transform_exception_witness :
    (sample_sender_unavailable 1).point_manager_.is_end = false ∧
    (sample_sender_unavailable 1).once.1
      = .error (.transform_exception "lookup would require extrapolation") ∧
    (sample_sender_unavailable 1).once.2 = sample_sender_unavailable 1 :=
  have h := once_propagates_transform_exception (sample_sender_unavailable 1)
    "lookup would require extrapolation" rfl rfl
  ⟨rfl, h.1, h.2.2⟩

/-- C6. A failed lookup changes nothing: for every manager state, at end or not, when the
lookup of "/map" to "/base_link" throws, the sender after `once()` is the sender before
it; in particular the sequence and the cursor are the same. -/
theorem once_lookup_failure_keeps_state {R : Type}
    [Sub R] [Mul R] [Add R] [LT R] [∀ a b : R, Decidable (a < b)]
    (g : GoalSender R) (what : String)
    (hlook : g.lookupper_.buffer_.lookupTransform "/map" "/base_link" = .error what) :
    g.once.2 = g ∧
    g.once.2.point_manager_.sequence_ = g.point_manager_.sequence_ ∧
    g.once.2.point_manager_.now_goal = g.point_manager_.now_goal := by
  have h : g.once.2 = g := by
    cases hend : g.point_manager_.is_end
    · rw [GoalSender.once_of_lookup_error g what hend hlook]
    · rw [GoalSender.once_of_end g hend]
  rw [h]
  exact ⟨rfl, rfl, rfl⟩

/-- Witness of C6, on `sample_manager 0` with a lookup that throws. -/
theorem once_lookup_failure_keeps_state_witness :
    (sample_sender_unavailable 0).once.2.point_manager_.sequence_
        = (sample_manager 0).sequence_ ∧
    (sample_sender_unavailable 0).once.2.point_manager_.now_goal = 0 :=
  have h := once_lookup_failure_keeps_state (sample_sender_unavailable 0)
    "lookup would require extrapolation" rfl
  ⟨h.2.1, h.2.2⟩

/-- C7. Single advance step: on a manager that is not at end, `next()` moves the cursor
forward by exactly one, leaves the sequence unchanged, and returns the negation of
`is_end()` evaluated after the call: `false` if the new cursor is the end marker and
`true` otherwise. -/
theorem next_advances_by_one {R : Type} (m : WaypointManager R)
    (hend : m.is_end = false) :
    m.next.2.now_goal = m.now_goal + 1 ∧
    m.next.2.sequence_ = m.sequence_ ∧
    m.next.1 = .ok (!m.next.2.is_end) ∧
    (m.next.1 = .ok false ↔ m.next.2.now_goal = m.next.2.sequence_.waypoints.length) := by
  rw [WaypointManager.next_of_not_end m hend]
  refine ⟨rfl, rfl, ?_, ?_⟩
  · show Except.ok _ = Except.ok _
    congr 2
    simp only [WaypointManager.is_end]
    by_cases h : m.now_goal + 1 = m.sequence_.waypoints.length
    · simp [h]
    · have h2 : ¬ (m.sequence_.waypoints.length = m.now_goal + 1) := fun e => h e.symm
      simp [h, h2]
  · show Except.ok _ = Except.ok false ↔ m.now_goal + 1 = m.sequence_.waypoints.length
    by_cases h : m.now_goal + 1 = m.sequence_.waypoints.length <;> simp [h]

/-- Witness of C7: from the last element of `sample_waypoints` the call returns `false`
and lands on the end marker. -/
theorem next_advances_by_one_witness :
    (sample_manager 1).is_end = false ∧
    (sample_manager 1).next.2.now_goal = 1 + 1 ∧
    (sample_manager 1).next.1 = .ok (!(sample_manager 1).next.2.is_end) :=
  have h := next_advances_by_one (sample_manager 1) rfl
  ⟨rfl, h.1, h.2.2.1⟩

/-- C8. EXHAUSTED is a no-op state: on a manager at end, whatever the position provider
would answer (a position or an exception), `once()` returns normally and leaves the
sender unchanged, and any number of further ticks, under any contents of the transform
buffer, return normally and keep the sequence, the cursor and `is_end()` true. -/
theorem once_at_end_is_noop {R : Type}
    [Sub R] [Mul R] [Add R] [LT R] [∀ a b : R, Decidable (a < b)]
    (g : GoalSender R) (hend : g.point_manager_.is_end = true) :
    (∀ l : TfPositionManager R,
      GoalSender.once { g with lookupper_ := l } = (.ok (), { g with lookupper_ := l })) ∧
    (∀ bufs : List (Buffer R),
      (g.main_loop bufs).1 = .ok () ∧
      (g.main_loop bufs).2.point_manager_ = g.point_manager_ ∧
      (g.main_loop bufs).2.point_manager_.is_end = true) := by
  constructor
  · intro l
    exact GoalSender.once_of_end _ hend
  · intro bufs
    induction bufs generalizing g with
    | nil => exact ⟨rfl, rfl, hend⟩
    | cons b bs ih =>
      have h1 : GoalSender.once { g with lookupper_ := { buffer_ := b } }
          = (.ok (), { g with lookupper_ := { buffer_ := b } }) :=
        GoalSender.once_of_end _ hend
      have h2 : g.main_loop (b :: bs)
          = GoalSender.main_loop { g with lookupper_ := { buffer_ := b } } bs := by
        simp [GoalSender.main_loop, h1]
      rw [h2]
      exact ih { g with lookupper_ := { buffer_ := b } } hend

/-- Witness of C8: three ticks on `sample_manager 2`, which is at end, with the lookup
throwing, answering, and throwing again. -/
theorem once_at_end_is_noop_witness :
    (sample_manager 2).is_end = true ∧
    (GoalSender.main_loop (sample_sender 2 0 0)
      [Buffer.unavailable, Buffer.at_position 10 10, Buffer.unavailable]).1 = .ok () ∧
    (GoalSender.main_loop (sample_sender 2 0 0)
      [Buffer.unavailable, Buffer.at_position 10 10, Buffer.unavailable]).2.point_manager_
        = sample_manager 2 :=
  have h := (once_at_end_is_noop (sample_sender 2 0 0) rfl).2
    [Buffer.unavailable, Buffer.at_position 10 10, Buffer.unavailable]
  ⟨rfl, h.1, h.2.1⟩

/-- C9. Initial state: the manager constructed in `main` holds an empty sequence with the
cursor on the end marker, `is_end()` is true, and `point()`, `radius()` and `next()` throw
the `logic_error` on it. -/
theorem constructed_is_at_end {R : Type} :
    (WaypointManager.constructed : WaypointManager R).sequence_.waypoints = [] ∧
    (WaypointManager.constructed : WaypointManager R).now_goal
      = (WaypointManager.constructed : WaypointManager R).sequence_.waypoints.length ∧
    (WaypointManager.constructed : WaypointManager R).is_end = true ∧
    (WaypointManager.constructed : WaypointManager R).point
      = .error (.logic_error "range error: Please check is_end() before point()") ∧
    (WaypointManager.constructed : WaypointManager R).radius
      = .error (.logic_error "range error: Please check is_end() before radius()") ∧
    (WaypointManager.constructed : WaypointManager R).next.1
      = .error (.logic_error "range error: Please check is_end() before next()") :=
  ⟨rfl, rfl, rfl, rfl, rfl, rfl⟩

/-- C10. The goal-update handler always accepts: for every manager state, request and
response object, `operator()` returns `true`. -/
theorem call_operator_returns_true {R : Type} (m : WaypointManager R)
    (req : ApplyGoalsRequest R) (res : ApplyGoalsResponse) :
    (m.call_operator req res).1 = true :=
  rfl

/-- C12. Cursor validity: in every state reached from the manager constructed in `main` by
any sequence of goal-update requests, calls of `next()` and ticks of `once()`, the cursor
is a valid index (`cursor < length`) or the end marker (`cursor = length`); more
generally every such sequence keeps this property from any state that has it. -/
theorem cursor_valid_in_every_reachable_state {R : Type}
    [Sub R] [Mul R] [Add R] [LT R] [∀ a b : R, Decidable (a < b)] :
    (∀ es : List (Event R),
      (WaypointManager.constructed.run es).now_goal
          < (WaypointManager.constructed.run es).sequence_.waypoints.length ∨
      (WaypointManager.constructed.run es).now_goal
          = (WaypointManager.constructed.run es).sequence_.waypoints.length) ∧
    (∀ (m : WaypointManager R) (es : List (Event R)),
      (m.now_goal < m.sequence_.waypoints.length ∨
        m.now_goal = m.sequence_.waypoints.length) →
      ((m.run es).now_goal < (m.run es).sequence_.waypoints.length ∨
        (m.run es).now_goal = (m.run es).sequence_.waypoints.length)) := by
  constructor
  · intro es
    have h := WaypointManager.run_cursor_le (WaypointManager.constructed : WaypointManager R)
      es (Nat.le_refl 0)
    omega
  · intro m es hm
    have h := WaypointManager.run_cursor_le m es (by omega)
    omega

/-- Witness of C12: from the first sample waypoint, a tick that reaches it, two calls of
`next()`, a tick whose lookup throws and a goal-update request end on the end marker. -/
theorem cursor_valid_in_every_reachable_state_witness :
    ((sample_manager 0).run [.once (Buffer.at_position 0 0), .next, .next,
        .once Buffer.unavailable, .apply_goals sample_request { success := false }]).now_goal
      < ((sample_manager 0).run [.once (Buffer.at_position 0 0), .next, .next,
        .once Buffer.unavailable, .apply_goals sample_request { success := false }]
        ).sequence_.waypoints.length ∨
    ((sample_manager 0).run [.once (Buffer.at_position 0 0), .next, .next,
        .once Buffer.unavailable, .apply_goals sample_request { success := false }]).now_goal
      = ((sample_manager 0).run [.once (Buffer.at_position 0 0), .next, .next,
        .once Buffer.unavailable, .apply_goals sample_request { success := false }]
        ).sequence_.waypoints.length :=
  cursor_valid_in_every_reachable_state.2 (sample_manager 0) _ (by decide)

/-- C13. The tick never violates the precondition of the manager: for every sender, at end
or not, `once()` never ends with the `logic_error` of `point()`, `radius()` or `next()`;
and when the lookup succeeds and the cursor is within `[0, length]`, `once()` returns
normally. -/
theorem once_never_throws_logic_error {R : Type}
    [Sub R] [Mul R] [Add R] [LT R] [∀ a b : R, Decidable (a < b)] (g : GoalSender R) :
    (∀ what : String, g.once.1 ≠ .error (.logic_error what)) ∧
    (∀ ts : TransformStamped R,
      g.lookupper_.buffer_.lookupTransform "/map" "/base_link" = .ok ts →
      g.point_manager_.now_goal ≤ g.point_manager_.sequence_.waypoints.length →
      g.once.1 = .ok ()) := by
  constructor
  · intro what
    cases hend : g.point_manager_.is_end with
    | true =>
      rw [GoalSender.once_of_end g hend]
      intro h
      cases h
    | false =>
      have hn := WaypointManager.next_of_not_end _ hend
      have hl := GoalSender.is_reach_not_logic_error g hend
      cases hr : g.is_reach with
      | error e =>
        have h1 : g.once.1 = .error e := by simp [GoalSender.once, hend, hr]
        rw [h1]
        intro h
        injection h with h2
        exact hl what (by rw [hr, h2])
      | ok b =>
        have h1 : g.once.1 = .ok () := by
          cases b <;> simp [GoalSender.once, hend, hr, hn]
        rw [h1]
        intro h
        cases h
  · intro ts hlook hle
    cases hend : g.point_manager_.is_end with
    | true => rw [GoalSender.once_of_end g hend]
    | false =>
      have hne := (WaypointManager.is_end_eq_false_iff _).1 hend
      have hlt : g.point_manager_.now_goal < g.point_manager_.sequence_.waypoints.length := by
        omega
      have hact : g.point_manager_.sequence_.waypoints[g.point_manager_.now_goal]?
          = some g.point_manager_.sequence_.waypoints[g.point_manager_.now_goal] :=
        List.getElem?_eq_getElem hlt
      rw [GoalSender.once_of_lookup g _ ts hend hact hlook]
      split <;> rfl

/-- Witness of C13: the tick on the first sample waypoint with the robot at `(1,1)`. -/
theorem once_never_throws_logic_error_witness :
    (sample_sender 0 1 1).point_manager_.now_goal
      ≤ (sample_sender 0 1 1).point_manager_.sequence_.waypoints.length ∧
    (sample_sender 0 1 1).once.1 = .ok () :=
  ⟨by decide, (once_never_throws_logic_error (sample_sender 0 1 1)).2
    { transform := { translation := { x := 1, y := 1 } } } rfl (by decide)⟩

/-- C14. At most one waypoint per tick, never backwards: for every sender, one call of
`once()` leaves the sequence unchanged and leaves the cursor unchanged or advanced by
exactly one; and when the robot position satisfies the waypoint at the cursor `k` but
not the waypoint at `k + 1`, the first tick moves the cursor to `k + 1` and any number
of further ticks at that position leave it at `k + 1`. -/
theorem once_moves_at_most_one_waypoint {R : Type}
    [Sub R] [Mul R] [Add R] [LT R] [∀ a b : R, Decidable (a < b)] :
    (∀ g : GoalSender R,
      g.once.2.point_manager_.sequence_ = g.point_manager_.sequence_ ∧
      (g.once.2.point_manager_.now_goal = g.point_manager_.now_goal ∨
        g.once.2.point_manager_.now_goal = g.point_manager_.now_goal + 1)) ∧
    (∀ (g : GoalSender R) (wk wk1 : Waypoint R) (ts : TransformStamped R) (n : Nat),
      g.point_manager_.sequence_.waypoints[g.point_manager_.now_goal]? = some wk →
      g.point_manager_.sequence_.waypoints[g.point_manager_.now_goal + 1]? = some wk1 →
      g.lookupper_.buffer_.lookupTransform "/map" "/base_link" = .ok ts →
      squaring_distance
        ({ x := ts.transform.translation.x, y := ts.transform.translation.y } : Point R)
        wk.position < wk.radius * wk.radius →
      ¬ squaring_distance
        ({ x := ts.transform.translation.x, y := ts.transform.translation.y } : Point R)
        wk1.position < wk1.radius * wk1.radius →
      g.main_loop (List.replicate (n + 1) g.lookupper_.buffer_)
        = (.ok (), { g with point_manager_ :=
            { g.point_manager_ with now_goal := g.point_manager_.now_goal + 1 } })) := by
  constructor
  · intro g
    rcases GoalSender.once_state_cases g with h | ⟨_, h⟩
    · rw [h]
      exact ⟨rfl, Or.inl rfl⟩
    · rw [h]
      exact ⟨rfl, Or.inr rfl⟩
  · intro g wk wk1 ts n hk hk1 hlook hin hout
    have hend := WaypointManager.not_end_of_active _ wk hk
    have h1 : GoalSender.once { g with lookupper_ := { buffer_ := g.lookupper_.buffer_ } }
        = (.ok (), { g with point_manager_ :=
            { g.point_manager_ with now_goal := g.point_manager_.now_goal + 1 } }) := by
      show g.once = _
      rw [GoalSender.once_of_lookup g wk ts hend hk hlook, if_pos hin]
    show GoalSender.main_loop g
      (g.lookupper_.buffer_ :: List.replicate n g.lookupper_.buffer_) = _
    simp only [GoalSender.main_loop, h1]
    exact GoalSender.main_loop_not_reached
      { g with point_manager_ :=
          { g.point_manager_ with now_goal := g.point_manager_.now_goal + 1 } }
      wk1 ts hk1 hlook hout n

/-- Witness of C14: the robot at `(0,0)` satisfies the first sample waypoint and not the
second; three ticks leave the cursor on the second. -/
theorem once_moves_at_most_one_waypoint_witness :
    (sample_sender 0 0 0).main_loop
        (List.replicate (2 + 1) (sample_sender 0 0 0).lookupper_.buffer_)
      = (.ok (), { sample_sender 0 0 0 with point_manager_ :=
          { (sample_sender 0 0 0).point_manager_ with
            now_goal := (sample_sender 0 0 0).point_manager_.now_goal + 1 } }) :=
  once_moves_at_most_one_waypoint.2 (sample_sender 0 0 0)
    { position := { x := 0, y := 0 }, radius := 2 }
    { position := { x := 10, y := 10 }, radius := 1 }
    { transform := { translation := { x := 0, y := 0 } } } 2 rfl rfl rfl
    (by decide) (by decide)

/-- C15. The squared comparison is exact over the reals: for every robot position `p`,
waypoint position `w` and radius `r ≥ 0`, the test `squaring_distance(p, w) < r*r` holds
if and only if the Euclidean distance `sqrt((p.x-w.x)^2 + (p.y-w.y)^2)` is less than `r`;
and this is the answer of `is_reach()` on an active waypoint with a successful lookup. -/
theorem squared_test_iff_distance_lt (p w : Point ℝ) (r : ℝ) (hr : 0 ≤ r) :
    (squaring_distance p w < r * r ↔
      Real.sqrt ((p.x - w.x) ^ 2 + (p.y - w.y) ^ 2) < r) ∧
    (∀ (g : GoalSender ℝ) (ts : TransformStamped ℝ),
      g.point_manager_.sequence_.waypoints[g.point_manager_.now_goal]?
        = some { position := w, radius := r } →
      g.lookupper_.buffer_.lookupTransform "/map" "/base_link" = .ok ts →
      p = { x := ts.transform.translation.x, y := ts.transform.translation.y } →
      (g.is_reach = .ok true ↔ Real.sqrt ((p.x - w.x) ^ 2 + (p.y - w.y) ^ 2) < r)) := by
  have h1 : squaring_distance p w < r * r ↔
      Real.sqrt ((p.x - w.x) ^ 2 + (p.y - w.y) ^ 2) < r := by
    rw [Real.sqrt_lt (by positivity) hr]
    simp only [squaring_distance, sq]
  refine ⟨h1, ?_⟩
  intro g ts hact hlook hp
  have hend := WaypointManager.not_end_of_active _ _ hact
  rw [GoalSender.is_reach_of_lookup g _ ts hend hact hlook, ← h1, hp]
  simp

/-- Witness of C15: the position `(1,1)` against the waypoint `(0,0)` of radius `2`. -/
theorem squared_test_iff_distance_lt_witness :
    (0 : ℝ) ≤ 2 ∧
    (squaring_distance ({ x := 1, y := 1 } : Point ℝ) { x := 0, y := 0 } < 2 * 2 ↔
      Real.sqrt (((1 : ℝ) - 0) ^ 2 + ((1 : ℝ) - 0) ^ 2) < 2) :=
  ⟨by norm_num, (squared_test_iff_distance_lt { x := 1, y := 1 } { x := 0, y := 0 } 2
    (by norm_num)).1⟩

set_option maxRecDepth 100000 in
/-- C17 fails on the code in its last part, since the code computes in `double`. With the
waypoint at `(0,0)`: for the radius `-0.01` (nearest double) the robot at the doubles
nearest to `(0.006, 0.008)` is not inside the disc of radius `|r|` (it is exactly on the
circle), yet `is_reach()` answers `true`; and for the radius `-1.5` the robot at the
doubles nearest to `(0.9, 1.2)` is strictly inside the disc of radius `|r|`, yet
`is_reach()` answers `false`. -/
theorem negative_radius_disc_differs_in_binary64 :
    ((-double_0_01).representable = true ∧ (-double_1_5).representable = true) ∧
    (¬ (double_0_006.toRat - 0) ^ 2 + (double_0_008.toRat - 0) ^ 2
        < |(-double_0_01).toRat| ^ 2 ∧
      (binary64_sender (-double_0_01) double_0_006 double_0_008).is_reach = .ok true) ∧
    ((double_0_9.toRat - 0) ^ 2 + (double_1_2.toRat - 0) ^ 2 < |(-double_1_5).toRat| ^ 2 ∧
      (binary64_sender (-double_1_5) double_0_9 double_1_2).is_reach = .ok false) := by
  refine ⟨⟨by decide, by decide⟩, ⟨?_, rfl⟩, ⟨?_, rfl⟩⟩
  · have h : (-double_0_01).toRat = (-5764607523034235 : ℚ) * (2 : ℚ) ^ (-59 : ℤ) := by
      show ((-5764607523034235 : ℤ) : ℚ) * (2 : ℚ) ^ (-59 : ℤ) = _
      norm_num
    rw [h, sq_abs]
    norm_num [double_0_006, double_0_008, Binary64.toRat]
  · have h : (-double_1_5).toRat = (-3 : ℚ) * (2 : ℚ) ^ (-1 : ℤ) := by
      show ((-3 : ℤ) : ℚ) * (2 : ℚ) ^ (-1 : ℤ) = _
      norm_num
    rw [h, sq_abs]
    norm_num [double_0_9, double_1_2, Binary64.toRat]

/-- C17 as amended. The sign of the radius is ignored, in the arithmetic of the code: in
any arithmetic in which a number and its opposite have the same square (as in
`double`), replacing every radius by its opposite changes neither the answer of
`is_reach()` nor the outcome of `once()`, and the manager after `once()` is the same up
to that replacement; so on an active waypoint of radius `r` with a successful lookup
`is_reach()` answers `true` exactly when the computed test passes for the radius `-r`. -/
theorem radius_sign_does_not_change_decision {R : Type}
    [Sub R] [Mul R] [Add R] [LT R] [∀ a b : R, Decidable (a < b)] [Neg R]
    (hneg : ∀ r : R, -r * -r = r * r) (g : GoalSender R) :
    g.negate_radii.is_reach = g.is_reach ∧
    g.negate_radii.once.1 = g.once.1 ∧
    g.negate_radii.once.2 = g.once.2.negate_radii ∧
    g.negate_radii.once.2.point_manager_.now_goal = g.once.2.point_manager_.now_goal ∧
    (∀ (wp : Waypoint R) (ts : TransformStamped R),
      g.point_manager_.sequence_.waypoints[g.point_manager_.now_goal]? = some wp →
      g.lookupper_.buffer_.lookupTransform "/map" "/base_link" = .ok ts →
      (g.is_reach = .ok true ↔
        squaring_distance
          ({ x := ts.transform.translation.x, y := ts.transform.translation.y } : Point R)
          wp.position < -wp.radius * -wp.radius)) := by
  have ho := GoalSender.negate_radii_once g hneg
  refine ⟨GoalSender.negate_radii_is_reach g hneg, by rw [ho], by rw [ho],
    by rw [ho]; rfl, ?_⟩
  intro wp ts hact hlook
  have hend := WaypointManager.not_end_of_active _ wp hact
  rw [GoalSender.is_reach_of_lookup g wp ts hend hact hlook, hneg]
  simp

set_option maxRecDepth 100000 in
/-- Witness of C17 as amended, in `double`: the waypoint `(0,0)` with the radius `1.5` or
`-1.5` gives the same answer for the robot at the doubles nearest to `(0.9, 1.2)`. -/
theorem radius_sign_does_not_change_decision_witness :
    (∀ r : Binary64, -r * -r = r * r) ∧
    (binary64_sender double_1_5 double_0_9 double_1_2).negate_radii.is_reach
      = (binary64_sender double_1_5 double_0_9 double_1_2).is_reach ∧
    (binary64_sender double_1_5 double_0_9 double_1_2).is_reach = .ok false :=
  ⟨Binary64.neg_mul_neg,
    (radius_sign_does_not_change_decision Binary64.neg_mul_neg
      (binary64_sender double_1_5 double_0_9 double_1_2)).1, rfl⟩

end GoalSenderNode
